import Mathlib

/-!
Verification of `pinocchio`'s spatial act-on-set kernels
(`src/spatial/act-on-set.hpp`).

The file embeds the six single-column kernels (SE3 action and inverse
action on motions and forces, and the motion action / Lie bracket on
motions and forces), together with the column-wise batch dispatcher, as
executable Lean functions over rational scalars.  3-vectors and 3x3
matrices are hand-rolled structures mirroring the fixed-size Eigen
objects used by the source; a 6D spatial vector is a pair of 3-vector
halves, `lin` occupying rows 0-2 (Eigen `head<3>`) and `ang` occupying
rows 3-5 (Eigen `tail<3>`), which is the storage layout used by both the
motion and the force columns in the source.

Each kernel definition follows the source statement by statement: the
source intentionally writes temporaries into the output buffer and reads
them back, so the definitions sequence those reads and writes through
`let` bindings exactly as the C++ does.  For the inverse kernels an
additional "aliased" variant models the case where the output buffer is
the very same storage as the input buffer (each assignment's right-hand
side is fully evaluated against the current buffer contents before the
target half is overwritten, which is the semantics of the Eigen
expressions used there).
-/

namespace ActOnSet

/-- A 3-vector of rationals (Eigen `Vector3`). -/
structure V3 where
  x : ℚ
  y : ℚ
  z : ℚ
  deriving DecidableEq

namespace V3

theorem extV3 {a b : V3} (hx : a.x = b.x) (hy : a.y = b.y) (hz : a.z = b.z) :
    a = b := by
  cases a; cases b; cases hx; cases hy; cases hz; rfl

def add (a b : V3) : V3 := ⟨a.x + b.x, a.y + b.y, a.z + b.z⟩

def sub (a b : V3) : V3 := ⟨a.x - b.x, a.y - b.y, a.z - b.z⟩

def neg (a : V3) : V3 := ⟨-a.x, -a.y, -a.z⟩

instance : Add V3 := ⟨add⟩

instance : Sub V3 := ⟨sub⟩

instance : Neg V3 := ⟨neg⟩

instance : Zero V3 := ⟨⟨0, 0, 0⟩⟩

theorem add_def (a b : V3) : a + b = ⟨a.x + b.x, a.y + b.y, a.z + b.z⟩ := rfl

theorem sub_def (a b : V3) : a - b = ⟨a.x - b.x, a.y - b.y, a.z - b.z⟩ := rfl

theorem zero_def : (0 : V3) = ⟨0, 0, 0⟩ := rfl

/-- Dot product of two 3-vectors. -/
def dot (a b : V3) : ℚ := a.x * b.x + a.y * b.y + a.z * b.z

/-- Cross product of two 3-vectors (Eigen `cross`). -/
def cross (a b : V3) : V3 :=
  ⟨a.y * b.z - a.z * b.y, a.z * b.x - a.x * b.z, a.x * b.y - a.y * b.x⟩

end V3

/-- A 3x3 matrix of rationals, stored as three rows (Eigen `Matrix3`). -/
structure M3 where
  r0 : V3
  r1 : V3
  r2 : V3
  deriving DecidableEq

namespace M3

theorem extM3 {A B : M3} (h0 : A.r0 = B.r0) (h1 : A.r1 = B.r1)
    (h2 : A.r2 = B.r2) : A = B := by
  cases A; cases B; cases h0; cases h1; cases h2; rfl

/-- Matrix-vector product. -/
def mulVec (A : M3) (v : V3) : V3 := ⟨A.r0.dot v, A.r1.dot v, A.r2.dot v⟩

/-- Matrix transpose. -/
def transpose (A : M3) : M3 :=
  ⟨⟨A.r0.x, A.r1.x, A.r2.x⟩, ⟨A.r0.y, A.r1.y, A.r2.y⟩, ⟨A.r0.z, A.r1.z, A.r2.z⟩⟩

/-- Matrix-matrix product. -/
def mul (A B : M3) : M3 :=
  let Bt := B.transpose
  ⟨⟨A.r0.dot Bt.r0, A.r0.dot Bt.r1, A.r0.dot Bt.r2⟩,
   ⟨A.r1.dot Bt.r0, A.r1.dot Bt.r1, A.r1.dot Bt.r2⟩,
   ⟨A.r2.dot Bt.r0, A.r2.dot Bt.r1, A.r2.dot Bt.r2⟩⟩

/-- Identity matrix. -/
def one : M3 := ⟨⟨1, 0, 0⟩, ⟨0, 1, 0⟩, ⟨0, 0, 1⟩⟩

end M3

/-- A rigid transform `m = (R, p)` (class `se3::SE3`): only its
`rotation()` and `translation()` accessors are used by this core. -/
structure SE3 where
  rotation : M3
  translation : V3
  deriving DecidableEq

/-- A 6D spatial vector: `lin` is rows 0-2 (`head<3>`), `ang` is rows 3-5
(`tail<3>`).  Used for both motion columns (linear/angular velocity) and
force columns (linear force/torque). -/
structure Sp where
  lin : V3
  ang : V3
  deriving DecidableEq

namespace Sp

theorem extSp {a b : Sp} (hl : a.lin = b.lin) (ha : a.ang = b.ang) : a = b := by
  cases a; cases b; cases hl; cases ha; rfl

instance : Zero Sp := ⟨⟨0, 0⟩⟩

end Sp

open V3 M3

/-- `internal::MotionSetSe3Action<Mat,MatRet,1>::run` with output storage
distinct from the input: `jV.tail = R*angular`, then
`jV.head = p x jV.tail + R*linear` (the second statement re-reads the
just-written output tail). -/
def motionSe3Action1 (m : SE3) (iV : Sp) : Sp :=
  let linear := iV.lin
  let angular := iV.ang
  let jVtail := m.rotation.mulVec angular
  let jVhead := m.translation.cross jVtail + m.rotation.mulVec linear
  ⟨jVhead, jVtail⟩

/-- `internal::MotionSetSe3ActionInverse<Mat,MatRet,1>::run` with output
storage distinct from the input: `jV.tail = linear - p x angular` (used
as a temporary), `jV.head = R^T * jV.tail`, `jV.tail = R^T * angular`. -/
def motionSe3ActionInverse1 (m : SE3) (iV : Sp) : Sp :=
  let linear := iV.lin
  let angular := iV.ang
  let tmp := linear - m.translation.cross angular
  let jVhead := m.rotation.transpose.mulVec tmp
  let jVtail := m.rotation.transpose.mulVec angular
  ⟨jVhead, jVtail⟩

/-- `internal::ForceSetSe3Action<Mat,MatRet,1>::run` with output storage
distinct from the input: `jF.head = R*linear`, then
`jF.tail = p x jF.head + R*angular` (re-reading the written head). -/
def forceSe3Action1 (m : SE3) (iF : Sp) : Sp :=
  let linear := iF.lin
  let angular := iF.ang
  let jFhead := m.rotation.mulVec linear
  let jFtail := m.translation.cross jFhead + m.rotation.mulVec angular
  ⟨jFhead, jFtail⟩

/-- `internal::ForceSetSe3ActionInverse<Mat,MatRet,1>::run` with output
storage distinct from the input: `jF.head = angular - p x linear` (used
as a temporary), `jF.tail = R^T * jF.head`, `jF.head = R^T * linear`. -/
def forceSe3ActionInverse1 (m : SE3) (iF : Sp) : Sp :=
  let linear := iF.lin
  let angular := iF.ang
  let tmp := angular - m.translation.cross linear
  let jFtail := m.rotation.transpose.mulVec tmp
  let jFhead := m.rotation.transpose.mulVec linear
  ⟨jFhead, jFtail⟩

/-- `internal::MotionSetSe3ActionInverse<Mat,MatRet,1>::run` when the
output buffer is the very same storage as the input buffer.  The Eigen
blocks `linear`/`angular` alias the buffer, so each statement reads the
current buffer contents (each right-hand side is fully evaluated before
its target half is overwritten). -/
def motionSe3ActionInverse1Aliased (m : SE3) (b0 : Sp) : Sp :=
  let b1 : Sp := ⟨b0.lin, b0.lin - m.translation.cross b0.ang⟩
  let b2 : Sp := ⟨m.rotation.transpose.mulVec b1.ang, b1.ang⟩
  let b3 : Sp := ⟨b2.lin, m.rotation.transpose.mulVec b2.ang⟩
  b3

/-- `internal::ForceSetSe3ActionInverse<Mat,MatRet,1>::run` when the
output buffer is the very same storage as the input buffer. -/
def forceSe3ActionInverse1Aliased (m : SE3) (b0 : Sp) : Sp :=
  let b1 : Sp := ⟨b0.ang - m.translation.cross b0.lin, b0.ang⟩
  let b2 : Sp := ⟨b1.lin, m.rotation.transpose.mulVec b1.lin⟩
  let b3 : Sp := ⟨m.rotation.transpose.mulVec b2.lin, b2.ang⟩
  b3

/-- Modelled from the spec: the motion-on-motion Lie bracket kernel.
`internal::MotionSetMotionAction<..,1>::run` delegates to
`MotionRef::motionAction`, whose implementation is outside this file;
the spec gives `dX_ang = v_ang x X_ang` and
`dX_lin = v_ang x X_lin + v_lin x X_ang`. -/
def motionMotionAction1 (v : Sp) (iV : Sp) : Sp :=
  ⟨v.ang.cross iV.lin + v.lin.cross iV.ang, v.ang.cross iV.ang⟩

/-- Modelled from the spec: the motion-on-force (dual) bracket kernel.
`internal::ForceSetMotionAction<..,1>::run` delegates to
`ForceRef::motionAction`, whose implementation is outside this file; the
spec gives `dX_lin = v_ang x X_lin` and
`dX_ang = v_ang x X_ang + v_lin x X_lin`. -/
def forceMotionAction1 (v : Sp) (iF : Sp) : Sp :=
  ⟨v.ang.cross iF.lin, v.ang.cross iF.ang + v.lin.cross iF.lin⟩

/-! ## Batch state and the column-wise dispatcher

A 6xN spatial-vector set is a list of N columns.  The set-level entry
points receive caller-owned input and output storage; we model the pair
as a `SetState` and each kernel invocation as a functional update of the
output columns, so that the frame conditions (the input set is never
written, column `i` of the output is computed from column `i` of the
input alone) are provable statements rather than side effects. -/

/-- Caller-supplied input and output storage for one set-level call. -/
structure SetState where
  inp : List Sp
  out : List Sp
  deriving DecidableEq

namespace SetState

/-- Read input column `col` (shape violations are caller contract
violations; out-of-range reads are totalised with the zero column). -/
def inCol (s : SetState) (col : Nat) : Sp := s.inp.getD col 0

/-- Write output column `col`. -/
def writeOut (s : SetState) (col : Nat) (v : Sp) : SetState :=
  ⟨s.inp, s.out.set col v⟩

end SetState

/-- The column loop shared by all six generic (`NCOLS` unspecialised)
`run` implementations: `for(col = 0; col < jF.cols(); ++col)
jF.col(col) = kernel(m, iF.col(col))`.  `k` is the number of columns
still to process, starting at column `col`. -/
def colLoop (f : Sp → Sp) : Nat → Nat → SetState → SetState
  | _, 0, s => s
  | col, k + 1, s =>
      colLoop f (col + 1) k (s.writeOut col (f (s.inCol col)))

/-- The dispatch performed by the six namespace-level entry points: the
template specialisation on `Mat::ColsAtCompileTime` invokes the
single-column kernel directly when the column count is statically 1, and
otherwise the generic column loop bounded by the output column count. -/
def setDispatch (f : Sp → Sp) (ncols : Nat) (s : SetState) : SetState :=
  if ncols = 1 then s.writeOut 0 (f (s.inCol 0))
  else colLoop f 0 s.out.length s

/-- `motionSet::se3Action` on a set. -/
def motionSetSe3Action (m : SE3) (ncols : Nat) (s : SetState) : SetState :=
  setDispatch (motionSe3Action1 m) ncols s

/-- `motionSet::se3ActionInverse` on a set. -/
def motionSetSe3ActionInverse (m : SE3) (ncols : Nat) (s : SetState) :
    SetState :=
  setDispatch (motionSe3ActionInverse1 m) ncols s

/-- `motionSet::motionAction` on a set. -/
def motionSetMotionAction (v : Sp) (ncols : Nat) (s : SetState) : SetState :=
  setDispatch (motionMotionAction1 v) ncols s

/-- `forceSet::se3Action` on a set. -/
def forceSetSe3Action (m : SE3) (ncols : Nat) (s : SetState) : SetState :=
  setDispatch (forceSe3Action1 m) ncols s

/-- `forceSet::se3ActionInverse` on a set. -/
def forceSetSe3ActionInverse (m : SE3) (ncols : Nat) (s : SetState) :
    SetState :=
  setDispatch (forceSe3ActionInverse1 m) ncols s

/-- `forceSet::motionAction` on a set. -/
def forceSetMotionAction (v : Sp) (ncols : Nat) (s : SetState) : SetState :=
  setDispatch (forceMotionAction1 v) ncols s

/-! ## Algebraic helper lemmas -/

theorem dot_add_right (a b c : V3) : a.dot (b + c) = a.dot b + a.dot c := by
  cases a; cases b; cases c; simp [V3.dot, V3.add_def]; ring

theorem dot_add_left (a b c : V3) : (a + b).dot c = a.dot c + b.dot c := by
  cases a; cases b; cases c; simp [V3.dot, V3.add_def]; ring

theorem dot_sub_right (a b c : V3) : a.dot (b - c) = a.dot b - a.dot c := by
  cases a; cases b; cases c; simp [V3.dot, V3.sub_def]; ring

theorem dot_sub_left (a b c : V3) : (a - b).dot c = a.dot c - b.dot c := by
  cases a; cases b; cases c; simp [V3.dot, V3.sub_def]; ring

/-- The scalar triple product changes sign when the cross factor moves
across the dot: `(p x a) . b = -(a . (p x b))`. -/
theorem cross_dot_swap (p a b : V3) : (p.cross a).dot b = -(a.dot (p.cross b)) := by
  cases p; cases a; cases b; simp [V3.dot, V3.cross]; ring

theorem cross_self (a : V3) : a.cross a = 0 := by
  cases a; apply V3.extV3 <;> simp [V3.cross, V3.zero_def] <;> ring

theorem cross_anticomm (a b : V3) : a.cross b + b.cross a = 0 := by
  cases a; cases b; apply V3.extV3 <;> simp [V3.cross, V3.add_def, V3.zero_def] <;> ring

theorem add_sub_cancel_left_v3 (a b : V3) : a + b - a = b := by
  cases a; cases b; apply V3.extV3 <;> simp [V3.add_def, V3.sub_def]

theorem add_sub_cancel_v3 (a b : V3) : a + (b - a) = b := by
  cases a; cases b; apply V3.extV3 <;> simp [V3.add_def, V3.sub_def]

theorem mulVec_mulVec (A B : M3) (v : V3) :
    A.mulVec (B.mulVec v) = (A.mul B).mulVec v := by
  cases A; cases B; cases v
  apply V3.extV3 <;> simp [M3.mulVec, M3.mul, M3.transpose, V3.dot] <;> ring

theorem mulVec_one (v : V3) : M3.one.mulVec v = v := by
  cases v; apply V3.extV3 <;> simp [M3.mulVec, M3.one, V3.dot]

theorem dot_mulVec_transpose (A : M3) (u v : V3) :
    (A.mulVec u).dot v = u.dot (A.transpose.mulVec v) := by
  cases A; cases u; cases v
  simp [M3.mulVec, M3.transpose, V3.dot]; ring

/-! ### Orthonormality: a left inverse of a 3x3 matrix is two-sided.

We transport the hand-rolled `M3` to Mathlib's `Matrix (Fin 3) (Fin 3) ℚ`
to use `Matrix.mul_eq_one_comm`. -/

/-- Entry `(i, j)` of an `M3`. -/
def M3.entry (A : M3) (i j : Fin 3) : ℚ :=
  let row : V3 :=
    match i with
    | 0 => A.r0
    | 1 => A.r1
    | 2 => A.r2
  match j with
  | 0 => row.x
  | 1 => row.y
  | 2 => row.z

/-- The Mathlib matrix with the same entries. -/
def M3.toMat (A : M3) : Matrix (Fin 3) (Fin 3) ℚ := Matrix.of A.entry

theorem toMat_mul (A B : M3) : (A.mul B).toMat = A.toMat * B.toMat := by
  cases A; cases B
  ext i j
  fin_cases i <;> fin_cases j <;>
    simp [M3.toMat, M3.entry, M3.mul, M3.transpose, V3.dot,
      Matrix.mul_apply, Fin.sum_univ_three]

theorem toMat_one : M3.one.toMat = 1 := by
  ext i j
  fin_cases i <;> fin_cases j <;>
    simp [M3.toMat, M3.entry, M3.one, Matrix.one_apply]

theorem toMat_inj {A B : M3} (h : A.toMat = B.toMat) : A = B := by
  apply M3.extM3 <;> apply V3.extV3
  exacts [congrFun (congrFun h 0) 0, congrFun (congrFun h 0) 1,
    congrFun (congrFun h 0) 2, congrFun (congrFun h 1) 0,
    congrFun (congrFun h 1) 1, congrFun (congrFun h 1) 2,
    congrFun (congrFun h 2) 0, congrFun (congrFun h 2) 1,
    congrFun (congrFun h 2) 2]

/-- For 3x3 matrices `R^T R = 1` forces `R R^T = 1`. -/
theorem mul_transpose_of_transpose_mul {R : M3}
    (h : R.transpose.mul R = M3.one) : R.mul R.transpose = M3.one := by
  apply toMat_inj
  rw [toMat_mul, toMat_one]
  have h2 : R.transpose.toMat * R.toMat = 1 := by
    rw [← toMat_mul, h, toMat_one]
  exact Matrix.mul_eq_one_comm.mp h2

theorem transpose_mulVec_mulVec {R : M3} (h : R.transpose.mul R = M3.one)
    (v : V3) : R.transpose.mulVec (R.mulVec v) = v := by
  rw [mulVec_mulVec, h, mulVec_one]

theorem mulVec_transpose_mulVec {R : M3} (h : R.transpose.mul R = M3.one)
    (v : V3) : R.mulVec (R.transpose.mulVec v) = v := by
  rw [mulVec_mulVec, mul_transpose_of_transpose_mul h, mulVec_one]

theorem dot_mulVec_mulVec {R : M3} (h : R.transpose.mul R = M3.one)
    (u v : V3) : (R.mulVec u).dot (R.mulVec v) = u.dot v := by
  rw [dot_mulVec_transpose, transpose_mulVec_mulVec h]

theorem dot_transpose_mulVec_mulVec {R : M3} (h : R.transpose.mul R = M3.one)
    (u v : V3) :
    (R.transpose.mulVec u).dot (R.transpose.mulVec v) = u.dot v := by
  have h2 := mul_transpose_of_transpose_mul h
  have hTT : R.transpose.transpose = R := by
    cases R; apply M3.extM3 <;> apply V3.extV3 <;> simp [M3.transpose]
  rw [dot_mulVec_transpose, hTT, mulVec_mulVec, h2, mulVec_one]

/-! ### Column-loop lemmas -/

theorem colLoop_inp (f : Sp → Sp) (col k : Nat) (s : SetState) :
    (colLoop f col k s).inp = s.inp := by
  induction k generalizing col s with
  | zero => rfl
  | succ k ih => rw [colLoop, ih]; rfl

theorem colLoop_out_length (f : Sp → Sp) (col k : Nat) (s : SetState) :
    (colLoop f col k s).out.length = s.out.length := by
  induction k generalizing col s with
  | zero => rfl
  | succ k ih =>
      rw [colLoop, ih]
      simp [SetState.writeOut]

theorem colLoop_inCol (f : Sp → Sp) (col k : Nat) (s : SetState) (i : Nat) :
    (colLoop f col k s).inCol i = s.inCol i := by
  unfold SetState.inCol
  rw [colLoop_inp]

theorem colLoop_out_below (f : Sp → Sp) (col k : Nat) (s : SetState)
    (i : Nat) (hi : i < col) :
    (colLoop f col k s).out[i]? = s.out[i]? := by
  induction k generalizing col s with
  | zero => rfl
  | succ k ih =>
      rw [colLoop, ih _ _ (Nat.lt_succ_of_lt hi)]
      exact List.getElem?_set_ne (Nat.ne_of_gt hi)

theorem colLoop_out_computed (f : Sp → Sp) (col k : Nat) (s : SetState)
    (i : Nat) (h1 : col ≤ i) (h2 : i < col + k) (h3 : i < s.out.length) :
    (colLoop f col k s).out[i]? = some (f (s.inCol i)) := by
  induction k generalizing col s with
  | zero => exact absurd h2 (Nat.not_lt.mpr h1)
  | succ k ih =>
      rw [colLoop]
      rcases Nat.eq_or_lt_of_le h1 with heq | hlt
      · subst heq
        rw [colLoop_out_below f (col + 1) k _ col (Nat.lt_succ_self col)]
        simp only [SetState.writeOut]
        exact List.getElem?_set_self h3
      · rw [ih (col + 1) (s.writeOut col (f (s.inCol col))) hlt (by omega)
            (by simpa [SetState.writeOut] using h3)]
        simp [SetState.writeOut, SetState.inCol]

theorem colLoop_out_above (f : Sp → Sp) (col k : Nat) (s : SetState)
    (i : Nat) (hi : col + k ≤ i) :
    (colLoop f col k s).out[i]? = s.out[i]? := by
  induction k generalizing col s with
  | zero => rfl
  | succ k ih =>
      rw [colLoop, ih _ _ (by omega)]
      exact List.getElem?_set_ne (by omega)

/-! ### Dispatch-level lemmas -/

theorem setDispatch_of_one (f : Sp → Sp) (s : SetState) :
    setDispatch f 1 s = s.writeOut 0 (f (s.inCol 0)) := by
  simp [setDispatch]

theorem setDispatch_inp (f : Sp → Sp) (n : Nat) (s : SetState) :
    (setDispatch f n s).inp = s.inp := by
  unfold setDispatch
  split
  · rfl
  · exact colLoop_inp f 0 s.out.length s

theorem setDispatch_out_length (f : Sp → Sp) (n : Nat) (s : SetState) :
    (setDispatch f n s).out.length = s.out.length := by
  unfold setDispatch
  split
  · simp [SetState.writeOut]
  · exact colLoop_out_length f 0 s.out.length s

theorem setDispatch_out_loop (f : Sp → Sp) {n : Nat} (hn : n ≠ 1)
    (s : SetState) {i : Nat} (hi : i < s.out.length) :
    (setDispatch f n s).out[i]? = some (f (s.inCol i)) := by
  rw [setDispatch, if_neg hn]
  exact colLoop_out_computed f 0 s.out.length s i (Nat.zero_le i)
    (by omega) hi

theorem setDispatch_out_above (f : Sp → Sp) {n : Nat} (hn : n ≠ 1)
    (s : SetState) {i : Nat} (hi : s.out.length ≤ i) :
    (setDispatch f n s).out[i]? = s.out[i]? := by
  rw [setDispatch, if_neg hn]
  exact colLoop_out_above f 0 s.out.length s i (by omega)

/-- On both dispatch paths, when the static column count equals the
actual output width every output column holds the kernel of the matching
input column. -/
theorem setDispatch_out (f : Sp → Sp) {n : Nat} (s : SetState)
    (hn : n = s.out.length) {i : Nat} (hi : i < s.out.length) :
    (setDispatch f n s).out[i]? = some (f (s.inCol i)) := by
  by_cases h1 : n = 1
  · have hi0 : i = 0 := by omega
    subst hi0
    rw [setDispatch, if_pos h1]
    simp only [SetState.writeOut]
    exact List.getElem?_set_self hi
  · exact setDispatch_out_loop f h1 s hi

theorem setDispatch_roundtrip (f g : Sp → Sp) (hfg : ∀ x, g (f x) = x)
    (n : Nat) (s : SetState) (out2 : List Sp)
    (hin : s.inp.length = s.out.length) (hn : n = s.out.length)
    (h2 : out2.length = s.out.length) (i : Nat) (hi : i < s.out.length) :
    (setDispatch g n (SetState.mk (setDispatch f n s).out out2)).out[i]?
      = s.inp[i]? := by
  have hcol : (setDispatch f n s).out[i]? = some (f (s.inCol i)) :=
    setDispatch_out f s hn hi
  have htin : (SetState.mk (setDispatch f n s).out out2).inCol i
      = f (s.inCol i) := by
    show ((setDispatch f n s).out).getD i 0 = f (s.inCol i)
    rw [List.getD_eq_getElem?_getD, hcol]
    rfl
  rw [setDispatch_out g (SetState.mk (setDispatch f n s).out out2)
      (by show n = out2.length; omega) (by show i < out2.length; omega),
    htin, hfg]
  have hlt : i < s.inp.length := by omega
  have hic : s.inCol i = s.inp.get ⟨i, hlt⟩ := by
    show s.inp.getD i 0 = _
    rw [List.getD_eq_getElem?_getD, List.getElem?_eq_getElem hlt]
    rfl
  rw [List.getElem?_eq_getElem hlt, hic]
  rfl

/-- Batch locality: on the loop path, output column `i` is determined
by input column `i` alone (two states agreeing there agree on that
output column). -/
theorem setDispatch_local (f : Sp → Sp) {n : Nat} (hn : n ≠ 1)
    (s t : SetState) (hlen : s.out.length = t.out.length) (i : Nat)
    (hi : i < s.out.length) (hcol : s.inCol i = t.inCol i) :
    (setDispatch f n s).out[i]? = (setDispatch f n t).out[i]? := by
  rw [setDispatch_out_loop f hn s hi,
    setDispatch_out_loop f hn t (hlen ▸ hi), hcol]

/-- The statically-1 path writes no output column other than column 0. -/
theorem setDispatch_one_untouched (f : Sp → Sp) (s : SetState) (i : Nat)
    (h : i ≠ 0) : (setDispatch f 1 s).out[i]? = s.out[i]? := by
  rw [setDispatch_of_one]
  exact List.getElem?_set_ne (Ne.symm h)

/-! ## Pairings and sample values -/

/-- The bilinear pairing exactly as the spec's duality sentence writes
it: `⟨f, v⟩ = f_lin . v_ang + f_ang . v_lin` (crossed halves). -/
def pairingSpec (f v : Sp) : ℚ := f.lin.dot v.ang + f.ang.dot v.lin

/-- The power pairing the kernels actually leave invariant:
`⟨f, v⟩ = f_lin . v_lin + f_ang . v_ang` (matched halves; both motion
and force columns store their linear part in rows 0-2). -/
def pairingPower (f v : Sp) : ℚ := f.lin.dot v.lin + f.ang.dot v.ang

/-- A sample orthonormal rotation: the quarter turn about the z axis. -/
def Rz : M3 := ⟨⟨0, -1, 0⟩, ⟨1, 0, 0⟩, ⟨0, 0, 1⟩⟩

/-- A sample rigid transform with orthonormal rotation. -/
def mEx : SE3 := ⟨Rz, ⟨1, 2, 3⟩⟩

/-- A sample motion column. -/
def vEx : Sp := ⟨⟨2, 1, 0⟩, ⟨1, 1, 4⟩⟩

/-- A sample force column. -/
def fEx : Sp := ⟨⟨1, 0, 2⟩, ⟨0, 3, 1⟩⟩

/-- A sample two-column set state. -/
def sEx : SetState := ⟨[vEx, fEx], [0, 0]⟩

/-- A second set state agreeing with `sEx` on input column 0 only. -/
def tEx : SetState := ⟨[vEx, vEx], [0, 0]⟩

theorem RzOrtho : Rz.transpose.mul Rz = M3.one := by
  apply M3.extM3 <;> apply V3.extV3 <;>
    norm_num [Rz, M3.mul, M3.transpose, M3.one, V3.dot]

/-! ## Claim theorems -/

/-- C1 counterexample: the pairing written in the spec,
`⟨f, v⟩ = f_lin . v_ang + f_ang . v_lin`, is not invariant under the
simultaneous forward actions: with `R = 1`, `p = (1,0,0)`,
`f = (0, (0,0,1))`, `v = (0, (0,1,0))` it is `0` before and `1` after
the transforms. -/
theorem C1_counterexample :
    pairingSpec
        (forceSe3Action1 (SE3.mk M3.one ⟨1, 0, 0⟩) (Sp.mk 0 ⟨0, 0, 1⟩))
        (motionSe3Action1 (SE3.mk M3.one ⟨1, 0, 0⟩) (Sp.mk 0 ⟨0, 1, 0⟩))
      ≠ pairingSpec (Sp.mk 0 ⟨0, 0, 1⟩) (Sp.mk 0 ⟨0, 1, 0⟩) := by
  simp [pairingSpec, forceSe3Action1, motionSe3Action1, M3.mulVec,
    M3.one, V3.cross, V3.dot, V3.add_def, V3.zero_def]

/-- C1 (amended): for every rigid transform `m = (R, p)` with
orthonormal `R`, the pairing `⟨f, v⟩ = f_lin . v_lin + f_ang . v_ang`
is invariant under the simultaneous forward actions, and symmetrically
under the pair of inverse actions. -/
theorem C1_pairing_invariance (m : SE3)
    (hR : m.rotation.transpose.mul m.rotation = M3.one) (f v : Sp) :
    pairingPower (forceSe3Action1 m f) (motionSe3Action1 m v)
        = pairingPower f v
    ∧ pairingPower (forceSe3ActionInverse1 m f) (motionSe3ActionInverse1 m v)
        = pairingPower f v := by
  constructor
  · show (m.rotation.mulVec f.lin).dot
        (m.translation.cross (m.rotation.mulVec v.ang)
          + m.rotation.mulVec v.lin)
      + (m.translation.cross (m.rotation.mulVec f.lin)
          + m.rotation.mulVec f.ang).dot (m.rotation.mulVec v.ang)
      = f.lin.dot v.lin + f.ang.dot v.ang
    rw [dot_add_right, dot_add_left, cross_dot_swap,
      dot_mulVec_mulVec hR, dot_mulVec_mulVec hR]
    ring
  · show (m.rotation.transpose.mulVec f.lin).dot
        (m.rotation.transpose.mulVec (v.lin - m.translation.cross v.ang))
      + (m.rotation.transpose.mulVec (f.ang - m.translation.cross f.lin)).dot
        (m.rotation.transpose.mulVec v.ang)
      = f.lin.dot v.lin + f.ang.dot v.ang
    rw [dot_transpose_mulVec_mulVec hR, dot_transpose_mulVec_mulVec hR,
      dot_sub_right, dot_sub_left, cross_dot_swap]
    ring

/-- C1 witness: the amended invariance evaluated at a concrete
orthonormal transform and concrete force and motion columns. -/
theorem C1_pairing_invariance_witness :
    mEx.rotation.transpose.mul mEx.rotation = M3.one
    ∧ (pairingPower (forceSe3Action1 mEx fEx) (motionSe3Action1 mEx vEx)
          = pairingPower fEx vEx
       ∧ pairingPower (forceSe3ActionInverse1 mEx fEx)
            (motionSe3ActionInverse1 mEx vEx) = pairingPower fEx vEx) :=
  ⟨RzOrtho, C1_pairing_invariance mEx RzOrtho fEx vEx⟩

/-- C7: for every rigid transform whose rotation is orthonormal
(`R^T R = 1`), the forward and inverse actions are mutually inverse on
single motion and force vectors and on 6xN sets, in both namespaces. -/
theorem C7_roundtrip (m : SE3)
    (hR : m.rotation.transpose.mul m.rotation = M3.one) :
    (∀ v : Sp, motionSe3ActionInverse1 m (motionSe3Action1 m v) = v)
    ∧ (∀ v : Sp, motionSe3Action1 m (motionSe3ActionInverse1 m v) = v)
    ∧ (∀ f : Sp, forceSe3ActionInverse1 m (forceSe3Action1 m f) = f)
    ∧ (∀ f : Sp, forceSe3Action1 m (forceSe3ActionInverse1 m f) = f)
    ∧ (∀ (n : Nat) (s : SetState) (out2 : List Sp),
        s.inp.length = s.out.length → n = s.out.length →
        out2.length = s.out.length → ∀ i, i < s.out.length →
          (motionSetSe3ActionInverse m n
              (SetState.mk (motionSetSe3Action m n s).out out2)).out[i]?
            = s.inp[i]?
          ∧ (motionSetSe3Action m n
              (SetState.mk (motionSetSe3ActionInverse m n s).out out2)).out[i]?
            = s.inp[i]?
          ∧ (forceSetSe3ActionInverse m n
              (SetState.mk (forceSetSe3Action m n s).out out2)).out[i]?
            = s.inp[i]?
          ∧ (forceSetSe3Action m n
              (SetState.mk (forceSetSe3ActionInverse m n s).out out2)).out[i]?
            = s.inp[i]?) := by
  have h1 : ∀ v : Sp, motionSe3ActionInverse1 m (motionSe3Action1 m v) = v := by
    intro v
    apply Sp.extSp
    · show m.rotation.transpose.mulVec
        ((m.translation.cross (m.rotation.mulVec v.ang)
            + m.rotation.mulVec v.lin)
          - m.translation.cross (m.rotation.mulVec v.ang)) = v.lin
      rw [add_sub_cancel_left_v3, transpose_mulVec_mulVec hR]
    · show m.rotation.transpose.mulVec (m.rotation.mulVec v.ang) = v.ang
      exact transpose_mulVec_mulVec hR v.ang
  have h2 : ∀ v : Sp, motionSe3Action1 m (motionSe3ActionInverse1 m v) = v := by
    intro v
    apply Sp.extSp
    · show m.translation.cross
          (m.rotation.mulVec (m.rotation.transpose.mulVec v.ang))
        + m.rotation.mulVec (m.rotation.transpose.mulVec
            (v.lin - m.translation.cross v.ang)) = v.lin
      rw [mulVec_transpose_mulVec hR, mulVec_transpose_mulVec hR,
        add_sub_cancel_v3]
    · show m.rotation.mulVec (m.rotation.transpose.mulVec v.ang) = v.ang
      exact mulVec_transpose_mulVec hR v.ang
  have h3 : ∀ f : Sp, forceSe3ActionInverse1 m (forceSe3Action1 m f) = f := by
    intro f
    apply Sp.extSp
    · show m.rotation.transpose.mulVec (m.rotation.mulVec f.lin) = f.lin
      exact transpose_mulVec_mulVec hR f.lin
    · show m.rotation.transpose.mulVec
        ((m.translation.cross (m.rotation.mulVec f.lin)
            + m.rotation.mulVec f.ang)
          - m.translation.cross (m.rotation.mulVec f.lin)) = f.ang
      rw [add_sub_cancel_left_v3, transpose_mulVec_mulVec hR]
  have h4 : ∀ f : Sp, forceSe3Action1 m (forceSe3ActionInverse1 m f) = f := by
    intro f
    apply Sp.extSp
    · show m.rotation.mulVec (m.rotation.transpose.mulVec f.lin) = f.lin
      exact mulVec_transpose_mulVec hR f.lin
    · show m.translation.cross
          (m.rotation.mulVec (m.rotation.transpose.mulVec f.lin))
        + m.rotation.mulVec (m.rotation.transpose.mulVec
            (f.ang - m.translation.cross f.lin)) = f.ang
      rw [mulVec_transpose_mulVec hR, mulVec_transpose_mulVec hR,
        add_sub_cancel_v3]
  refine ⟨h1, h2, h3, h4, fun n s out2 hio hn hl2 i hi => ⟨?_, ?_, ?_, ?_⟩⟩
  · exact setDispatch_roundtrip (motionSe3Action1 m)
      (motionSe3ActionInverse1 m) h1 n s out2 hio hn hl2 i hi
  · exact setDispatch_roundtrip (motionSe3ActionInverse1 m)
      (motionSe3Action1 m) h2 n s out2 hio hn hl2 i hi
  · exact setDispatch_roundtrip (forceSe3Action1 m)
      (forceSe3ActionInverse1 m) h3 n s out2 hio hn hl2 i hi
  · exact setDispatch_roundtrip (forceSe3ActionInverse1 m)
      (forceSe3Action1 m) h4 n s out2 hio hn hl2 i hi

/-- C7 witness: the round trip evaluated at a concrete orthonormal
transform and a concrete motion column. -/
theorem C7_roundtrip_witness :
    mEx.rotation.transpose.mul mEx.rotation = M3.one
    ∧ motionSe3ActionInverse1 mEx (motionSe3Action1 mEx vEx) = vEx :=
  ⟨RzOrtho, (C7_roundtrip mEx RzOrtho).1 vEx⟩

/-- C2: for every transform `m = (R, p)` and motion `v = (v_lin, v_ang)`
with output storage distinct from the input, `motionSet.se3Action`
writes `ang' = R*v_ang` (rows 3-5) and `lin' = p x ang' + R*v_lin`
(rows 0-2); in particular for `R = 1`, `p = (1,0,0)`,
`v = ((0,0,0),(0,0,1))` the result is `((0,-1,0),(0,0,1))`. -/
theorem C2_motion_se3Action_formula :
    (∀ (m : SE3) (v : Sp),
      motionSe3Action1 m v =
        Sp.mk (m.translation.cross (m.rotation.mulVec v.ang)
                + m.rotation.mulVec v.lin)
              (m.rotation.mulVec v.ang))
    ∧ motionSe3Action1 (SE3.mk M3.one ⟨1, 0, 0⟩) (Sp.mk 0 ⟨0, 0, 1⟩)
        = Sp.mk ⟨0, -1, 0⟩ ⟨0, 0, 1⟩ := by
  refine ⟨fun _ _ => rfl, ?_⟩
  apply Sp.extSp <;> apply V3.extV3 <;>
    simp [motionSe3Action1, M3.mulVec, M3.one, V3.cross, V3.dot,
      V3.add_def, V3.zero_def]

/-- C3: for every transform `m = (R, p)` and motion `v` with output
storage distinct from the input, `motionSet.se3ActionInverse` computes
`lin' = R^T * (v_lin - p x v_ang)` and `ang' = R^T * v_ang`, without
inverting `m`. -/
theorem C3_motion_se3ActionInverse_formula :
    ∀ (m : SE3) (v : Sp),
      motionSe3ActionInverse1 m v =
        Sp.mk (m.rotation.transpose.mulVec (v.lin - m.translation.cross v.ang))
              (m.rotation.transpose.mulVec v.ang) :=
  fun _ _ => rfl

/-- C4: for every transform `m = (R, p)` and force `f` with output
storage distinct from the input, `forceSet.se3Action` writes
`lin' = R*f_lin` and `ang' = p x lin' + R*f_ang`. -/
theorem C4_force_se3Action_formula :
    ∀ (m : SE3) (f : Sp),
      forceSe3Action1 m f =
        Sp.mk (m.rotation.mulVec f.lin)
              (m.translation.cross (m.rotation.mulVec f.lin)
                + m.rotation.mulVec f.ang) :=
  fun _ _ => rfl

/-- C5: for every transform `m = (R, p)` and force `f` with output
storage distinct from the input, `forceSet.se3ActionInverse` writes
`ang' = R^T * (f_ang - p x f_lin)` and `lin' = R^T * f_lin`. -/
theorem C5_force_se3ActionInverse_formula :
    ∀ (m : SE3) (f : Sp),
      forceSe3ActionInverse1 m f =
        Sp.mk (m.rotation.transpose.mulVec f.lin)
              (m.rotation.transpose.mulVec (f.ang - m.translation.cross f.lin)) :=
  fun _ _ => rfl

/-- C8: `motionAction` computes the Lie-bracket action — for motion
columns `dX_ang = v_ang x X_ang`, `dX_lin = v_ang x X_lin + v_lin x X_ang`;
for force columns `dX_lin = v_ang x X_lin`,
`dX_ang = v_ang x X_ang + v_lin x X_lin`; consequently the
motion-on-motion bracket is antisymmetric: `motionAction(v, v) = 0`. -/
theorem C8_motionAction_bracket :
    (∀ v X : Sp,
      motionMotionAction1 v X =
        Sp.mk (v.ang.cross X.lin + v.lin.cross X.ang) (v.ang.cross X.ang))
    ∧ (∀ v X : Sp,
      forceMotionAction1 v X =
        Sp.mk (v.ang.cross X.lin) (v.ang.cross X.ang + v.lin.cross X.lin))
    ∧ (∀ v : Sp, motionMotionAction1 v v = 0) := by
  refine ⟨fun _ _ => rfl, fun _ _ => rfl, fun v => ?_⟩
  apply Sp.extSp
  · show v.ang.cross v.lin + v.lin.cross v.ang = (0 : V3)
    exact cross_anticomm v.ang v.lin
  · show v.ang.cross v.ang = (0 : V3)
    exact cross_self v.ang

/-- C6: for every operation in both namespaces and every column count
`N > 1`, the set-level entry point produces, for each `i < N`, an output
column identical to the single-vector kernel applied to input column `i`
alone; and when the column count is statically 1 the entry point invokes
the single-vector kernel directly on the sole column. -/
theorem C6_batch_equivalence :
    (∀ (m : SE3) (N : Nat), 1 < N → ∀ s : SetState,
      s.inp.length = N → s.out.length = N → ∀ i, i < N →
        (motionSetSe3Action m N s).out[i]?
            = some (motionSe3Action1 m (s.inCol i))
        ∧ (motionSetSe3ActionInverse m N s).out[i]?
            = some (motionSe3ActionInverse1 m (s.inCol i))
        ∧ (forceSetSe3Action m N s).out[i]?
            = some (forceSe3Action1 m (s.inCol i))
        ∧ (forceSetSe3ActionInverse m N s).out[i]?
            = some (forceSe3ActionInverse1 m (s.inCol i)))
    ∧ (∀ (v : Sp) (N : Nat), 1 < N → ∀ s : SetState,
      s.inp.length = N → s.out.length = N → ∀ i, i < N →
        (motionSetMotionAction v N s).out[i]?
            = some (motionMotionAction1 v (s.inCol i))
        ∧ (forceSetMotionAction v N s).out[i]?
            = some (forceMotionAction1 v (s.inCol i)))
    ∧ (∀ (m : SE3) (s : SetState),
        motionSetSe3Action m 1 s
            = s.writeOut 0 (motionSe3Action1 m (s.inCol 0))
        ∧ motionSetSe3ActionInverse m 1 s
            = s.writeOut 0 (motionSe3ActionInverse1 m (s.inCol 0))
        ∧ forceSetSe3Action m 1 s
            = s.writeOut 0 (forceSe3Action1 m (s.inCol 0))
        ∧ forceSetSe3ActionInverse m 1 s
            = s.writeOut 0 (forceSe3ActionInverse1 m (s.inCol 0)))
    ∧ (∀ (v : Sp) (s : SetState),
        motionSetMotionAction v 1 s
            = s.writeOut 0 (motionMotionAction1 v (s.inCol 0))
        ∧ forceSetMotionAction v 1 s
            = s.writeOut 0 (forceMotionAction1 v (s.inCol 0))) := by
  refine ⟨fun m N hN s hin hout i hi => ⟨?_, ?_, ?_, ?_⟩,
    fun v N hN s hin hout i hi => ⟨?_, ?_⟩,
    fun m s => ⟨setDispatch_of_one _ s, setDispatch_of_one _ s,
      setDispatch_of_one _ s, setDispatch_of_one _ s⟩,
    fun v s => ⟨setDispatch_of_one _ s, setDispatch_of_one _ s⟩⟩
  · exact setDispatch_out_loop _ (by omega) s (by omega)
  · exact setDispatch_out_loop _ (by omega) s (by omega)
  · exact setDispatch_out_loop _ (by omega) s (by omega)
  · exact setDispatch_out_loop _ (by omega) s (by omega)
  · exact setDispatch_out_loop _ (by omega) s (by omega)
  · exact setDispatch_out_loop _ (by omega) s (by omega)

/-- C6 witness: batch equivalence evaluated on a concrete two-column
set. -/
theorem C6_batch_equivalence_witness :
    1 < 2 ∧ sEx.inp.length = 2 ∧ sEx.out.length = 2 ∧ 0 < 2
    ∧ ((motionSetSe3Action mEx 2 sEx).out[0]?
          = some (motionSe3Action1 mEx (sEx.inCol 0))
       ∧ (motionSetSe3ActionInverse mEx 2 sEx).out[0]?
          = some (motionSe3ActionInverse1 mEx (sEx.inCol 0))
       ∧ (forceSetSe3Action mEx 2 sEx).out[0]?
          = some (forceSe3Action1 mEx (sEx.inCol 0))
       ∧ (forceSetSe3ActionInverse mEx 2 sEx).out[0]?
          = some (forceSe3ActionInverse1 mEx (sEx.inCol 0))) :=
  ⟨by decide, rfl, rfl, by decide,
    C6_batch_equivalence.1 mEx 2 (by decide) sEx rfl rfl 0 (by decide)⟩

/-- C9: no entry point writes the input set (in the embedding: the
state's input component is preserved); on the batch path output column
`i` is determined by input column `i` alone and columns outside the
processed range are untouched; on the statically-1 path only output
column 0 is written. -/
theorem C9_frame_and_locality :
    (∀ (m : SE3) (n : Nat) (s : SetState),
        (motionSetSe3Action m n s).inp = s.inp
        ∧ (motionSetSe3ActionInverse m n s).inp = s.inp
        ∧ (forceSetSe3Action m n s).inp = s.inp
        ∧ (forceSetSe3ActionInverse m n s).inp = s.inp)
    ∧ (∀ (v : Sp) (n : Nat) (s : SetState),
        (motionSetMotionAction v n s).inp = s.inp
        ∧ (forceSetMotionAction v n s).inp = s.inp)
    ∧ (∀ (m : SE3) (n : Nat), n ≠ 1 → ∀ (s t : SetState),
        s.out.length = t.out.length → ∀ i, i < s.out.length →
        s.inCol i = t.inCol i →
          (motionSetSe3Action m n s).out[i]?
              = (motionSetSe3Action m n t).out[i]?
          ∧ (motionSetSe3ActionInverse m n s).out[i]?
              = (motionSetSe3ActionInverse m n t).out[i]?
          ∧ (forceSetSe3Action m n s).out[i]?
              = (forceSetSe3Action m n t).out[i]?
          ∧ (forceSetSe3ActionInverse m n s).out[i]?
              = (forceSetSe3ActionInverse m n t).out[i]?)
    ∧ (∀ (v : Sp) (n : Nat), n ≠ 1 → ∀ (s t : SetState),
        s.out.length = t.out.length → ∀ i, i < s.out.length →
        s.inCol i = t.inCol i →
          (motionSetMotionAction v n s).out[i]?
              = (motionSetMotionAction v n t).out[i]?
          ∧ (forceSetMotionAction v n s).out[i]?
              = (forceSetMotionAction v n t).out[i]?)
    ∧ (∀ (m : SE3) (n : Nat), n ≠ 1 → ∀ (s : SetState) (i : Nat),
        s.out.length ≤ i →
          (motionSetSe3Action m n s).out[i]? = s.out[i]?
          ∧ (motionSetSe3ActionInverse m n s).out[i]? = s.out[i]?
          ∧ (forceSetSe3Action m n s).out[i]? = s.out[i]?
          ∧ (forceSetSe3ActionInverse m n s).out[i]? = s.out[i]?)
    ∧ (∀ (v : Sp) (n : Nat), n ≠ 1 → ∀ (s : SetState) (i : Nat),
        s.out.length ≤ i →
          (motionSetMotionAction v n s).out[i]? = s.out[i]?
          ∧ (forceSetMotionAction v n s).out[i]? = s.out[i]?)
    ∧ (∀ (m : SE3) (s : SetState) (i : Nat), i ≠ 0 →
          (motionSetSe3Action m 1 s).out[i]? = s.out[i]?
          ∧ (motionSetSe3ActionInverse m 1 s).out[i]? = s.out[i]?
          ∧ (forceSetSe3Action m 1 s).out[i]? = s.out[i]?
          ∧ (forceSetSe3ActionInverse m 1 s).out[i]? = s.out[i]?)
    ∧ (∀ (v : Sp) (s : SetState) (i : Nat), i ≠ 0 →
          (motionSetMotionAction v 1 s).out[i]? = s.out[i]?
          ∧ (forceSetMotionAction v 1 s).out[i]? = s.out[i]?) := by
  refine ⟨fun m n s => ⟨setDispatch_inp _ n s, setDispatch_inp _ n s,
      setDispatch_inp _ n s, setDispatch_inp _ n s⟩,
    fun v n s => ⟨setDispatch_inp _ n s, setDispatch_inp _ n s⟩,
    fun m n hn s t hlen i hi hcol =>
      ⟨setDispatch_local _ hn s t hlen i hi hcol,
       setDispatch_local _ hn s t hlen i hi hcol,
       setDispatch_local _ hn s t hlen i hi hcol,
       setDispatch_local _ hn s t hlen i hi hcol⟩,
    fun v n hn s t hlen i hi hcol =>
      ⟨setDispatch_local _ hn s t hlen i hi hcol,
       setDispatch_local _ hn s t hlen i hi hcol⟩,
    fun m n hn s i hi => ⟨setDispatch_out_above _ hn s hi,
      setDispatch_out_above _ hn s hi, setDispatch_out_above _ hn s hi,
      setDispatch_out_above _ hn s hi⟩,
    fun v n hn s i hi => ⟨setDispatch_out_above _ hn s hi,
      setDispatch_out_above _ hn s hi⟩,
    fun m s i hi => ⟨setDispatch_one_untouched _ s i hi,
      setDispatch_one_untouched _ s i hi, setDispatch_one_untouched _ s i hi,
      setDispatch_one_untouched _ s i hi⟩,
    fun v s i hi => ⟨setDispatch_one_untouched _ s i hi,
      setDispatch_one_untouched _ s i hi⟩⟩

/-- C9 witness: batch locality evaluated on two concrete states that
agree on input column 0 only. -/
theorem C9_frame_and_locality_witness :
    (2 ≠ 1) ∧ sEx.out.length = tEx.out.length ∧ 0 < sEx.out.length
    ∧ sEx.inCol 0 = tEx.inCol 0
    ∧ ((motionSetSe3Action mEx 2 sEx).out[0]?
          = (motionSetSe3Action mEx 2 tEx).out[0]?
       ∧ (motionSetSe3ActionInverse mEx 2 sEx).out[0]?
          = (motionSetSe3ActionInverse mEx 2 tEx).out[0]?
       ∧ (forceSetSe3Action mEx 2 sEx).out[0]?
          = (forceSetSe3Action mEx 2 tEx).out[0]?
       ∧ (forceSetSe3ActionInverse mEx 2 sEx).out[0]?
          = (forceSetSe3ActionInverse mEx 2 tEx).out[0]?) :=
  ⟨by decide, rfl, by decide, rfl,
    C9_frame_and_locality.2.2.1 mEx 2 (by decide) sEx tEx rfl 0
      (by decide) rfl⟩

/-- C10: if the single-column `se3ActionInverse` kernel runs with the
output buffer aliasing the input buffer, both halves of the final result
are equal — `R^T*(v_lin - p x v_ang)` for motions,
`R^T*(f_ang - p x f_lin)` for forces — because the temporary written to
one output half overwrites the input block that a later statement
re-reads; hence for some aliased inputs the result is not the inverse
action. -/
theorem C10_aliased_inverse_clobbers :
    (∀ (m : SE3) (b : Sp),
      motionSe3ActionInverse1Aliased m b =
        Sp.mk (m.rotation.transpose.mulVec (b.lin - m.translation.cross b.ang))
              (m.rotation.transpose.mulVec (b.lin - m.translation.cross b.ang)))
    ∧ (∀ (m : SE3) (b : Sp),
      forceSe3ActionInverse1Aliased m b =
        Sp.mk (m.rotation.transpose.mulVec (b.ang - m.translation.cross b.lin))
              (m.rotation.transpose.mulVec (b.ang - m.translation.cross b.lin)))
    ∧ (∃ (m : SE3) (b : Sp),
        motionSe3ActionInverse1Aliased m b ≠ motionSe3ActionInverse1 m b)
    ∧ (∃ (m : SE3) (b : Sp),
        forceSe3ActionInverse1Aliased m b ≠ forceSe3ActionInverse1 m b) := by
  refine ⟨fun _ _ => rfl, fun _ _ => rfl, ?_, ?_⟩
  · refine ⟨SE3.mk M3.one 0, Sp.mk ⟨1, 0, 0⟩ 0, fun h => ?_⟩
    have := congrArg (fun r => r.ang.x) h
    simp [motionSe3ActionInverse1Aliased, motionSe3ActionInverse1,
      M3.mulVec, M3.transpose, M3.one, V3.cross, V3.dot, V3.sub_def,
      V3.zero_def] at this
  · refine ⟨SE3.mk M3.one 0, Sp.mk 0 ⟨1, 0, 0⟩, fun h => ?_⟩
    have := congrArg (fun r => r.lin.x) h
    simp [forceSe3ActionInverse1Aliased, forceSe3ActionInverse1,
      M3.mulVec, M3.transpose, M3.one, V3.cross, V3.dot, V3.sub_def,
      V3.zero_def] at this

end ActOnSet
